import Mathlib

/-!
# Verification of the-league's match video compositor and match loop

Shallow embedding of `src/league/video.py` and `src/league/compete.py`.
Python strings are modelled as `List Char`, Python floats that only ever
hold exact decimal values (durations, volume factors, skill levels) as `ℚ`,
rewards and scores as `ℤ`, raster images as abstract identifiers (`Nat`).
Fallible Python code (code that can raise) returns `Option`.
-/

namespace TheLeague

/-! ## Palette resolver (`video.py`, `hex_to_rgb`, lines 31-34) -/

/-- Value of one hex digit, as accepted by Python's `int(·, 16)`:
digits `0-9`, `a-f`, `A-F`. -/
def hexDigitVal (c : Char) : Option Nat :=
  if '0' ≤ c ∧ c ≤ '9' then some (c.toNat - 48)
  else if 'a' ≤ c ∧ c ≤ 'f' then some (c.toNat - 87)
  else if 'A' ≤ c ∧ c ≤ 'F' then some (c.toNat - 55)
  else none

/-- Accumulator loop for `pyIntHex`. -/
def pyIntHexAux : List Char → Nat → Option Nat
  | [], acc => some acc
  | c :: cs, acc =>
    match hexDigitVal c with
    | some v => pyIntHexAux cs (16 * acc + v)
    | none => none

/-- Python `int(s, 16)` restricted to plain hex-digit strings: a nonempty
string of hex digits parses to its value, anything else raises
(`none`).  (Python's `int` additionally tolerates surrounding whitespace,
a sign and underscores; none of those characters occur in the strings
this development reasons about, where the model agrees with Python
exactly.) -/
def pyIntHex (cs : List Char) : Option Nat :=
  if cs.isEmpty then none else pyIntHexAux cs 0

/-- Python slice `s[i:j]` (for `0 ≤ i ≤ j`): clamps at the string's end. -/
def pySlice (xs : List Char) (i j : Nat) : List Char :=
  (xs.drop i).take (j - i)

/-- `hex_to_rgb` (`video.py` lines 31-34):
`hex_color = hex_color.lstrip("#")` then
`tuple(int(hex_color[i:i+2], 16) for i in (0, 2, 4))`.
`lstrip("#")` removes every leading `'#'`; a `ValueError` from any of the
three two-character slices makes the whole call fail (`none`). -/
def hex_to_rgb (s : List Char) : Option (Nat × Nat × Nat) :=
  let t := s.dropWhile (· = '#')
  match pyIntHex (pySlice t 0 2), pyIntHex (pySlice t 2 4), pyIntHex (pySlice t 4 6) with
  | some r, some g, some b => some (r, g, b)
  | _, _, _ => none

/-- The spec's notion of a well-formed color token: after stripping one
optional leading `'#'` marker, exactly six hex digits remain. -/
def specValidHex6 (s : List Char) : Prop :=
  let t := match s with
    | '#' :: rest => rest
    | _ => s
  t.length = 6 ∧ ∀ c ∈ t, (hexDigitVal c).isSome

instance (s : List Char) : Decidable (specValidHex6 s) := by
  unfold specValidHex6; exact inferInstance

/-! ## Glow tones -/

/-- Glow tone used for the Intro team panels (`video.py` lines 109 and
129): `tuple(min(255, c + 30 * glow) for c in team_color)`. -/
def introGlowColor (c : Nat × Nat × Nat) (glow : Nat) : Nat × Nat × Nat :=
  (min 255 (c.1 + 30 * glow), min 255 (c.2.1 + 30 * glow), min 255 (c.2.2 + 30 * glow))

/-- Glow tone used for the Play scoreboard panels (`video.py` lines 177
and 187): `tuple(min(255, c + 40 * glow) for c in team_color)`. -/
def playGlowColor (c : Nat × Nat × Nat) (glow : Nat) : Nat × Nat × Nat :=
  (min 255 (c.1 + 40 * glow), min 255 (c.2.1 + 40 * glow), min 255 (c.2.2 + 40 * glow))

/-! ## Data model -/

/-- Raster image identifier (the pixel contents of a game frame are
opaque to the compositor; it only embeds them). -/
abbrev Img := Nat

/-- `Team` (`config.py`): the fields the compositor and match loop read. -/
structure Team where
  id : List Char
  name : List Char
  color : List Char
  skill_level : ℚ
deriving Repr, DecidableEq

/-- Frames per second (`video.py`, `FPS = 24`). -/
def FPS : ℕ := 24

/-- Canvas width (`video.py`, `VIDEO_WIDTH = 720`). -/
def VIDEO_WIDTH : ℤ := 720

/-- Canvas height (`video.py`, `VIDEO_HEIGHT = 1280`). -/
def VIDEO_HEIGHT : ℤ := 1280

/-- One frame of the assembled timeline, recorded as the phase renderer
invocation that produces it in `save_match_video`: intro frame `i` of
`create_animated_intro`, a `create_game_frame` call with its arguments,
or outcome frame `i` of `create_winner_sequence`. -/
inductive TFrame where
  | intro (i : Nat)
  | play (gameFrame : Option Img) (score1 score2 : ℤ) (turn : Nat) (frameNum : Nat)
  | outcome (i : Nat)
deriving Repr, DecidableEq

/-- Number of frames of an animated phase:
`num_frames = int(duration * FPS)` (`video.py` lines 67 and 241). -/
def phaseFrameCount (duration : ℚ) : Nat :=
  (Int.toNat ⌊duration * (FPS : ℚ)⌋)

/-- The intro segment of the timeline,
`create_animated_intro(..., duration=3.0)` seen as its frame indices. -/
def introSegment (duration : ℚ) : List TFrame :=
  (List.range (phaseFrameCount duration)).map TFrame.intro

/-- The outcome segment of the timeline,
`create_winner_sequence(..., duration=4.0)` seen as its frame indices. -/
def outcomeSegment (duration : ℚ) : List TFrame :=
  (List.range (phaseFrameCount duration)).map TFrame.outcome

/-- Score attached to Play frame `i` (`save_match_video` lines 352-355):
`scores_over_time[i]` when `i` is in range, else
`scores_over_time[-1] if scores_over_time else (0, 0)`. -/
def playScore (scores : List (ℤ × ℤ)) (i : Nat) : ℤ × ℤ :=
  if h : i < scores.length then scores.get ⟨i, h⟩ else scores.getLastD (0, 0)

/-- The Play segment: `save_match_video` lines 351-358, the loop
`for i, game_frame in enumerate(game_frames)` calling
`create_game_frame(game_frame, team1, team2, score1, score2, turn=i+1,
frame_num=i)`.  `i` is the running enumeration index. -/
def buildPlay (scores : List (ℤ × ℤ)) : Nat → List (Option Img) → List TFrame
  | _, [] => []
  | i, gf :: rest =>
    TFrame.play gf (playScore scores i).1 (playScore scores i).2 (i + 1) i
      :: buildPlay scores (i + 1) rest

/-- Final score shown by the winner sequence (`save_match_video` line
361): `scores_over_time[-1] if scores_over_time else (0, 0)`. -/
def finalScore (scores : List (ℤ × ℤ)) : ℤ × ℤ :=
  scores.getLastD (0, 0)

/-- The full assembled timeline (`save_match_video` lines 344-363):
`all_frames = intro_frames ++ [hud frames] ++ winner_frames`, with the
intro at `duration=3.0` and the winner sequence at `duration=4.0`. -/
def assembleTimeline (gameFrames : List (Option Img)) (scores : List (ℤ × ℤ)) :
    List TFrame :=
  introSegment 3 ++ buildPlay scores 0 gameFrames ++ outcomeSegment 4

/-- Winner determination (`compete.py` lines 95-100): `some false` means
team 1 won, `some true` team 2, `none` a draw. -/
def determineWinner (r1 r2 : ℤ) : Option Bool :=
  if r1 > r2 then some false
  else if r2 > r1 then some true
  else none

/-- Python slice `xs[::k]` for `k ≥ 1`: every `k`-th element starting at
index 0.  `compete.py` line 117 uses it with `k = 2`
(`scores_over_time[::2]`); the spec's sampling stride generalizes the
same slice to arbitrary `k`. -/
def pySliceStep (k : Nat) : List α → List α
  | [] => []
  | x :: rest => x :: pySliceStep k (rest.drop (k - 1))
termination_by xs => xs.length
decreasing_by simp; omega

/-! ## Match loop (`compete.py`, `run_match`, lines 64-90)

The environment is external: `env.agent_iter()` together with
`env.last()` and `env.render()` is modelled as a stream
`iter : Nat → Option StepRec`; `iter t = none` means the iterator is
exhausted at its `t`-th yield (all agents done), and a `StepRec` packs
everything the loop body reads on one iteration. -/

/-- What one `agent_iter` iteration observes: which team the current
agent belongs to (`false` = team 1), the reward from `env.last()`, the
termination/truncation flags, and the result of the `env.render()` call
made on that iteration (the render only happens on sampled turns, and
may return `None`). -/
structure StepRec where
  agent : Bool
  reward : ℤ
  term : Bool
  trunc : Bool
  render : Option Img
deriving Repr, DecidableEq

/-- The loop's mutable state: `rewards` for each team,
`scores_over_time`, `frames`, `turn_count`. -/
structure LoopState where
  r1 : ℤ
  r2 : ℤ
  scores : List (ℤ × ℤ)
  frames : List Img
  turnCount : Nat
deriving Repr, DecidableEq

/-- Initial loop state (`compete.py` lines 59-62). -/
def initLoopState : LoopState := ⟨0, 0, [], [], 0⟩

/-- One iteration of the `run_match` body (`compete.py` lines 65-88):
add the reward to the current agent's team, append the cumulative score
pair, on sampled turns (`record and turn_count % 2 == 0`) append the
rendered frame when it is not `None`, and increment `turn_count`.
(The action selection and `env.step` do not touch this state.) -/
def stepTurn (record : Bool) (st : LoopState) (rec : StepRec) : LoopState :=
  let r1 := if rec.agent then st.r1 else st.r1 + rec.reward
  let r2 := if rec.agent then st.r2 + rec.reward else st.r2
  let frames :=
    if record ∧ st.turnCount % 2 = 0 then
      match rec.render with
      | some f => st.frames ++ [f]
      | none => st.frames
    else st.frames
  ⟨r1, r2, st.scores ++ [(r1, r2)], frames, st.turnCount + 1⟩

/-- The `for agent in env.agent_iter()` loop with its bottom test
`turn_count += 1; if turn_count >= max_turns: break`, written with
explicit fuel.  The stream index equals `st.turnCount` throughout. -/
def goLoop (iter : Nat → Option StepRec) (record : Bool) (maxTurns : Nat) :
    Nat → LoopState → LoopState
  | 0, st => st
  | fuel + 1, st =>
    match iter st.turnCount with
    | none => st
    | some rec =>
      let st' := stepTurn record st rec
      if maxTurns ≤ st'.turnCount then st'
      else goLoop iter record maxTurns fuel st'

/-- The telemetry-collecting part of `run_match`: run the loop from the
initial state.  `maxTurns + 1` units of fuel are enough for the Python
loop's bottom test to fire first (proved below as
`goLoop_fuel_irrelevant`). -/
def runMatchLoop (iter : Nat → Option StepRec) (record : Bool) (maxTurns : Nat) :
    LoopState :=
  goLoop iter record maxTurns (maxTurns + 1) initLoopState

/-- The sampled score list passed to `save_match_video`
(`compete.py` line 117): `scores_over_time[::2][: len(frames)]`. -/
def sampledScores (st : LoopState) : List (ℤ × ℤ) :=
  (pySliceStep 2 st.scores).take st.frames.length

/-- The game-frame image produced by the environment's render call at
iteration `t` of the stream (`0` when there is none). -/
def imageAt (iter : Nat → Option StepRec) (t : Nat) : Img :=
  ((iter t).bind StepRec.render).getD 0

/-! ## Skill-modulated action selection
(`compete.py`, `select_action_with_skill`, lines 10-33)

Randomness is explicit: `r` is the value drawn by `np.random.random()`
(uniform on `[0,1)`) and `u` the index drawn by `np.random.choice`
(uniform on `[0, len(legal_actions))`). `best` is the model's
deterministic prediction `model.predict(..., deterministic=True)`. -/

/-- `np.where(mask == 1)[0]`: the indices of the mask entries equal to 1,
in increasing order. -/
def legalActions (mask : List ℤ) : List Nat :=
  (mask.enum.filter (fun p => p.2 = 1)).map Prod.fst

/-- `select_action_with_skill` with its random draws made explicit. -/
def select_action_with_skill (best : Nat) (mask : List ℤ) (skill_level r : ℚ)
    (u : Nat) : Nat :=
  let legal := legalActions mask
  if legal.length = 0 then 0
  else if r < skill_level then best
  else legal.getD u 0

/-! ## The Play frame renderer (`video.py`, `create_game_frame`, lines 146-233)

Rendering is modelled as the ordered list of drawing primitives issued
on the canvas.  The two sinusoidal pulses,
`header_pulse = int(5 * math.sin(frame_num * 0.1))` (line 168) and
`vs_pulse = int(3 * math.sin(frame_num * 0.15))` (line 194), are
floating-point quantities and enter the model as explicit integer
parameters. -/

/-- An RGB triple. -/
abbrev RGB := Nat × Nat × Nat

/-- The text payloads drawn by `create_game_frame` (the `f"{v:.0f}"`
formatting of the integral scores is kept symbolic). -/
inductive TextC where
  | title
  | teamName (s : List Char)
  | score (v : ℤ)
  | vs
  | turnLabel (n : Nat)
deriving Repr, DecidableEq

/-- One drawing primitive on the canvas.  `outlineAlpha` records the
alpha component passed with the outline color where the source supplies
a 4-tuple (only the embedded-frame border does). -/
inductive DrawOp where
  | rect (x1 y1 x2 y2 : ℤ) (fill : Option RGB) (outline : Option RGB)
      (outlineAlpha : Option Nat) (width : Nat)
  | ellipse (x1 y1 x2 y2 : ℤ) (fill : Option RGB) (outline : Option RGB) (width : Nat)
  | text (x y : ℤ) (content : TextC) (fill : RGB)
  | paste (img : Img) (w h : Nat) (x y : ℤ)
deriving Repr, DecidableEq

/-- Is the op a paste of an embedded image? -/
def DrawOp.isPaste : DrawOp → Bool
  | .paste .. => true
  | _ => false

/-- An embedded game frame as `Image.fromarray` sees it: pixel contents
opaque, with its dimensions. -/
structure GameImg where
  id : Img
  width : Nat
  height : Nat
deriving Repr, DecidableEq

/-- The embedded-game-frame ops (`create_game_frame` lines 203-225,
`some` branch): uniform scale `min(660/w, 900/h)`, centered offsets,
four concentric gold border outlines at `glow = 4..1` with alpha
`255 // glow`, then the paste. -/
def embedOps (img : GameImg) : List DrawOp :=
  let scale : ℚ := min ((660 : ℚ) / img.width) ((900 : ℚ) / img.height)
  let nw : Nat := (⌊(img.width : ℚ) * scale⌋).toNat
  let nh : Nat := (⌊(img.height : ℚ) * scale⌋).toNat
  let xOff : ℤ := (720 - (nw : ℤ)) / 2
  let yOff : ℤ := 230 + ((900 : ℤ) - nh) / 2
  (([4, 3, 2, 1] : List Nat).map (fun (g : Nat) =>
    DrawOp.rect (xOff - 5 - g) (yOff - 5 - g) (xOff + nw + 5 + g) (yOff + nh + 5 + g)
      none (some (255, 215, 0)) (some ((255 / g : Nat))) 1))
  ++ [DrawOp.paste img.id nw nh xOff yOff]

/-- `create_game_frame` as the ordered list of drawing primitives it
issues (lines 167-231); fails (`none`) when a team color token does not
resolve, as the Python raises from `hex_to_rgb`. -/
def create_game_frame (gameFrame : Option GameImg) (t1 t2 : Team)
    (score1 score2 : ℤ) (turn _fnum : Nat) (headerPulse vsPulse : ℤ) :
    Option (List DrawOp) :=
  match hex_to_rgb t1.color, hex_to_rgb t2.color with
  | some c1, some c2 => some (
      [DrawOp.rect 0 0 720 (90 + headerPulse) (some (20, 20, 35)) none none 0,
       DrawOp.text 360 45 TextC.title (255, 215, 0)]
      ++ (([2, 1] : List Nat).map (fun (g : Nat) =>
            DrawOp.rect (20 - (g : ℤ)) (110 - (g : ℤ)) (350 + (g : ℤ)) (200 + (g : ℤ))
              none (some (playGlowColor c1 g)) none 1))
      ++ [DrawOp.rect 20 110 350 200 (some c1) none none 0,
          DrawOp.text 180 135 (TextC.teamName (t1.name.take 15)) (255, 255, 255),
          DrawOp.text 180 170 (TextC.score score1) (255, 255, 255)]
      ++ (([2, 1] : List Nat).map (fun (g : Nat) =>
            DrawOp.rect (370 - (g : ℤ)) (110 - (g : ℤ)) (700 + (g : ℤ)) (200 + (g : ℤ))
              none (some (playGlowColor c2 g)) none 1))
      ++ [DrawOp.rect 370 110 700 200 (some c2) none none 0,
          DrawOp.text 540 135 (TextC.teamName (t2.name.take 15)) (255, 255, 255),
          DrawOp.text 540 170 (TextC.score score2) (255, 255, 255),
          DrawOp.ellipse (360 - 25 - vsPulse) (130 - vsPulse) (360 + 25 + vsPulse)
            (180 + vsPulse) (some (40, 40, 55)) (some (255, 215, 0)) 2,
          DrawOp.text 360 155 TextC.vs (255, 215, 0)]
      ++ (match gameFrame with
          | some img => embedOps img
          | none => [])
      ++ [DrawOp.rect 0 1190 720 1280 (some (20, 20, 35)) none none 0,
          DrawOp.rect 100 1210 620 1260 (some (40, 40, 55)) (some (255, 215, 0)) none 2,
          DrawOp.text 360 1235 (TextC.turnLabel turn) (255, 255, 255)])
  | _, _ => none

/-! ## Audio fitting (`video.py`, `save_match_video`, lines 368-381) -/

/-- Modelled from the spec: the moviepy audio clip operations used by
`save_match_video` (`AudioFileClip` source, `loop(duration=...)` which
repeats the clip seamlessly to the given duration, `subclip(0, t)` which
truncates to `[0, t]`, and `volumex(f)` which scales the volume), kept
as a term so that loop and truncation remain distinguishable. -/
inductive AudioTrack where
  | src (duration : ℚ)
  | loop (a : AudioTrack) (duration : ℚ)
  | subclip (a : AudioTrack) (tStart tEnd : ℚ)
  | volumex (a : AudioTrack) (factor : ℚ)
deriving Repr, DecidableEq

/-- Modelled from the spec: the duration of a moviepy audio clip —
looping to a target duration yields that duration, `subclip(s, e)`
yields `e - s`, volume scaling keeps the duration. -/
def AudioTrack.duration : AudioTrack → ℚ
  | .src d => d
  | .loop _ d => d
  | .subclip _ s e => e - s
  | .volumex a _ => a.duration

/-- Modelled from the spec: the accumulated volume gain of a clip
relative to its source (1 for the source itself; looping and truncation
preserve it; `volumex` multiplies it). -/
def AudioTrack.gain : AudioTrack → ℚ
  | .src _ => 1
  | .loop a _ => a.gain
  | .subclip a _ _ => a.gain
  | .volumex a f => a.gain * f

/-- Audio fitting, `save_match_video` lines 369-381: `loaded` is the
outcome of the existence check plus `AudioFileClip` load (`none` when
the asset is missing or loading raised).  A clip shorter than the video
is looped to the video's duration, otherwise truncated to it, and in all
cases attenuated with `volumex(0.3)`. -/
def fitAudio (loaded : Option AudioTrack) (videoDuration : ℚ) : Option AudioTrack :=
  match loaded with
  | none => none
  | some audio =>
    let fitted :=
      if audio.duration < videoDuration then AudioTrack.loop audio videoDuration
      else audio.subclip 0 videoDuration
    some (fitted.volumex (3 / 10))

/-- The muxer's output: the frame sequence and the optional audio track
attached to it. -/
structure VideoOut where
  frames : List TFrame
  audio : Option AudioTrack
deriving Repr, DecidableEq

/-- The mux step of `save_match_video` (lines 366-396): the video is
always produced from the assembled frames; the audio track is attached
only when fitting succeeded. -/
def muxVideo (frames : List TFrame) (loaded : Option AudioTrack)
    (videoDuration : ℚ) : VideoOut :=
  ⟨frames, fitAudio loaded videoDuration⟩

/-! ## Concrete inputs used by counterexamples and witnesses -/

/-- A team whose color token decodes to base RGB `(250, 10, 10)`. -/
def redTeam : Team := ⟨['r'], ['R', 'e', 'd'], ['#', 'F', 'A', '0', 'A', '0', 'A'], 1⟩

/-- An environment stream on which the render call of the first sampled
turn returns `None` while turn 2 renders image `42`: turns 0 and 1 give
no reward, turn 2 rewards team 1 with `1`. -/
def cexIter : Nat → Option StepRec := fun t =>
  if t = 0 then some ⟨false, 0, false, false, none⟩
  else if t = 1 then some ⟨true, 0, false, false, none⟩
  else if t = 2 then some ⟨false, 1, false, false, some 42⟩
  else none

/-- A two-iteration environment stream whose sampled (even) turn renders
image `7`. -/
def okIter : Nat → Option StepRec := fun t =>
  if t = 0 then some ⟨false, 1, false, false, some 7⟩
  else if t = 1 then some ⟨true, 0, false, false, none⟩
  else none

/-- An environment stream that never terminates or truncates (the
iterator always yields). -/
def constIter : Nat → Option StepRec := fun _ => some ⟨false, 0, false, false, none⟩

/-! ## Helper lemmas -/

theorem dropWhile_hash_replicate (n : Nat) (l : List Char) :
    (List.replicate n '#' ++ l).dropWhile (· = '#') = l.dropWhile (· = '#') := by
  induction n with
  | zero => simp
  | succ n ih =>
    rw [List.replicate_succ, List.cons_append, List.dropWhile_cons_of_pos (by decide)]
    exact ih

theorem buildPlay_length (scores : List (ℤ × ℤ)) (i : Nat) (gfs : List (Option Img)) :
    (buildPlay scores i gfs).length = gfs.length := by
  induction gfs generalizing i with
  | nil => simp [buildPlay]
  | cons gf rest ih => simp [buildPlay, ih]

theorem buildPlay_getD (scores : List (ℤ × ℤ)) (i j : Nat) (gfs : List (Option Img))
    (d : TFrame) (hj : j < gfs.length) :
    (buildPlay scores i gfs).getD j d =
      TFrame.play (gfs.getD j none) (playScore scores (i + j)).1
        (playScore scores (i + j)).2 (i + j + 1) (i + j) := by
  induction gfs generalizing i j with
  | nil => simp at hj
  | cons gf rest ih =>
    cases j with
    | zero => simp [buildPlay]
    | succ j =>
      have h' : j < rest.length := by simpa using hj
      have hadd : i + 1 + j = i + (j + 1) := by omega
      rw [buildPlay, List.getD_cons_succ, ih (i + 1) j h', hadd, List.getD_cons_succ]

theorem introSegment_three_length : (introSegment 3).length = 72 := by
  simp only [introSegment, List.length_map, List.length_range, phaseFrameCount, FPS]
  norm_num
  decide

theorem outcomeSegment_four_length : (outcomeSegment 4).length = 96 := by
  simp only [outcomeSegment, List.length_map, List.length_range, phaseFrameCount, FPS]
  norm_num
  decide

theorem assembleTimeline_length (gfs : List (Option Img)) (scores : List (ℤ × ℤ)) :
    (assembleTimeline gfs scores).length = 72 + gfs.length + 96 := by
  simp only [assembleTimeline, List.length_append, introSegment_three_length,
    outcomeSegment_four_length, buildPlay_length]

theorem pySliceStep_length (k : Nat) (hk : 0 < k) :
    ∀ (n : Nat) (xs : List α), xs.length ≤ n →
      (pySliceStep k xs).length = (xs.length + (k - 1)) / k := by
  intro n
  induction n with
  | zero =>
    intro xs h
    have : xs = [] := List.eq_nil_of_length_eq_zero (by omega)
    subst this
    simp [pySliceStep, Nat.div_eq_of_lt (by omega : k - 1 < k)]
  | succ n ih =>
    intro xs h
    cases xs with
    | nil => simp [pySliceStep, Nat.div_eq_of_lt (by omega : k - 1 < k)]
    | cons x rest =>
      rw [pySliceStep]
      have hx := h
      simp only [List.length_cons] at hx
      have hlen : (rest.drop (k - 1)).length ≤ n := by
        simp only [List.length_drop]
        omega
      simp only [List.length_cons, ih (rest.drop (k - 1)) hlen, List.length_drop]
      have h2 : rest.length + 1 + (k - 1) = rest.length + k := by omega
      rw [h2, Nat.add_div_right _ hk]
      rcases Nat.lt_or_ge rest.length (k - 1) with hc | hc
      · have h1 : rest.length - (k - 1) = 0 := by omega
        rw [h1, Nat.zero_add, Nat.div_eq_of_lt (by omega : k - 1 < k),
          Nat.div_eq_of_lt (by omega : rest.length < k)]
      · have h1 : rest.length - (k - 1) + (k - 1) = rest.length := by omega
        rw [h1]

theorem pyIntHexAux_isSome (cs : List Char) :
    ∀ acc : Nat, (pyIntHexAux cs acc).isSome ↔ ∀ c ∈ cs, (hexDigitVal c).isSome := by
  induction cs with
  | nil => intro acc; simp [pyIntHexAux]
  | cons c cs' ih =>
    intro acc
    rw [pyIntHexAux]
    cases h : hexDigitVal c with
    | some v => simp [h, ih]
    | none => simp [h]

theorem pyIntHex_isSome (cs : List Char) :
    (pyIntHex cs).isSome ↔ cs ≠ [] ∧ ∀ c ∈ cs, (hexDigitVal c).isSome := by
  rw [pyIntHex]
  by_cases h : cs.isEmpty
  · rw [if_pos h]
    simp only [List.isEmpty_iff] at h
    simp [h]
  · rw [if_neg h]
    simp only [List.isEmpty_iff] at h
    rw [pyIntHexAux_isSome]
    simp [h]

theorem take_two_drop_ne_nil (l : List Char) (a : Nat) :
    (l.drop a).take 2 ≠ [] ↔ a < l.length := by
  rw [Ne, ← List.length_eq_zero, List.length_take, List.length_drop]
  omega

theorem take_six_split (l : List Char) :
    l.take 6 = l.take 2 ++ ((l.drop 2).take 2 ++ (l.drop 4).take 2) := by
  rw [show (6 : Nat) = 2 + 4 from rfl, List.take_add,
    show (4 : Nat) = 2 + 2 from rfl, List.take_add, List.drop_drop]

theorem hex_to_rgb_isSome_iff (s : List Char) :
    (hex_to_rgb s).isSome ↔
      5 ≤ (s.dropWhile (· = '#')).length ∧
        ∀ c ∈ (s.dropWhile (· = '#')).take 6, (hexDigitVal c).isSome := by
  have hmatch : (hex_to_rgb s).isSome ↔
      (pyIntHex (pySlice (s.dropWhile (· = '#')) 0 2)).isSome ∧
      (pyIntHex (pySlice (s.dropWhile (· = '#')) 2 4)).isSome ∧
      (pyIntHex (pySlice (s.dropWhile (· = '#')) 4 6)).isSome := by
    rcases h1 : pyIntHex (pySlice (s.dropWhile (· = '#')) 0 2) with _ | a <;>
      rcases h2 : pyIntHex (pySlice (s.dropWhile (· = '#')) 2 4) with _ | b <;>
        rcases h3 : pyIntHex (pySlice (s.dropWhile (· = '#')) 4 6) with _ | c <;>
          simp [hex_to_rgb, h1, h2, h3]
  rw [hmatch, pyIntHex_isSome, pyIntHex_isSome, pyIntHex_isSome]
  simp only [pySlice, List.drop_zero, Nat.sub_zero,
    show (4 : Nat) - 2 = 2 from rfl, show (6 : Nat) - 4 = 2 from rfl]
  constructor
  · rintro ⟨⟨hn1, hh1⟩, ⟨hn2, hh2⟩, ⟨hn3, hh3⟩⟩
    have hl3 : 4 < (s.dropWhile (· = '#')).length := (take_two_drop_ne_nil _ 4).mp hn3
    refine ⟨by omega, ?_⟩
    intro c hc
    rw [take_six_split] at hc
    rcases List.mem_append.mp hc with hc | hc
    · exact hh1 c hc
    · rcases List.mem_append.mp hc with hc | hc
      · exact hh2 c hc
      · exact hh3 c hc
  · rintro ⟨hlen, hall⟩
    refine ⟨⟨?_, fun c hc => hall c ?_⟩, ⟨?_, fun c hc => hall c ?_⟩,
      ⟨?_, fun c hc => hall c ?_⟩⟩
    · rw [Ne, ← List.length_eq_zero, List.length_take]
      omega
    · rw [take_six_split]
      exact List.mem_append.mpr (Or.inl hc)
    · exact (take_two_drop_ne_nil _ 2).mpr (by omega)
    · rw [take_six_split]
      exact List.mem_append.mpr (Or.inr (List.mem_append.mpr (Or.inl hc)))
    · exact (take_two_drop_ne_nil _ 4).mpr (by omega)
    · rw [take_six_split]
      exact List.mem_append.mpr (Or.inr (List.mem_append.mpr (Or.inr hc)))

theorem hex_to_rgb_none_iff (s : List Char) :
    hex_to_rgb s = none ↔
      (s.dropWhile (· = '#')).length < 5 ∨
        ∃ c ∈ (s.dropWhile (· = '#')).take 6, hexDigitVal c = none := by
  constructor
  · intro h
    have hns : ¬ (hex_to_rgb s).isSome := by simp [h]
    rw [hex_to_rgb_isSome_iff] at hns
    by_cases hlen : (s.dropWhile (· = '#')).length < 5
    · exact Or.inl hlen
    · right
      by_contra hex
      push_neg at hex
      refine hns ⟨by omega, fun c hc => ?_⟩
      have hne := hex c hc
      cases hhc : hexDigitVal c with
      | none => exact absurd hhc hne
      | some v => simp [hhc]
  · intro h
    cases hres : hex_to_rgb s with
    | none => rfl
    | some v =>
      have hs : (hex_to_rgb s).isSome := by simp [hres]
      rw [hex_to_rgb_isSome_iff] at hs
      rcases h with h | ⟨c, hc, hnone⟩
      · omega
      · have hc' := hs.2 c hc
        simp [hnone] at hc'

/-! ## Claim theorems -/

/-- Claim C3 (counterexample): the glow outlines around the Play
scoreboard panels do not use the `30×glow` formula.  For base
`(250, 10, 10)` and `glow = 2` the Intro formula gives `(255, 70, 70)`
but `create_game_frame` draws the team-1 scoreboard glow outline with
`(255, 90, 90)` (channel `+ 40×glow`), and no op of the frame carries
the `30×glow` tone `(255, 70, 70)`. -/
theorem play_scoreboard_glow_is_40 :
    introGlowColor (250, 10, 10) 2 = (255, 70, 70) ∧
    playGlowColor (250, 10, 10) 2 = (255, 90, 90) ∧
    ∃ ops, create_game_frame none redTeam redTeam 0 0 1 0 0 0 = some ops ∧
      DrawOp.rect 18 108 352 202 none (some (255, 90, 90)) none 1 ∈ ops ∧
      ∀ op ∈ ops, op ≠ DrawOp.rect 18 108 352 202 none (some (255, 70, 70)) none 1 := by
  refine ⟨by decide, by decide, ?_⟩
  refine ⟨_, rfl, ?_, ?_⟩ <;> decide

/-- Claim C3 (amended): a base color with positive glow intensity is
brightened by exactly `30×glow` per channel, clamped to 255, for the
Intro team panels, and by exactly `40×glow` per channel, clamped to 255,
for the Play scoreboard panels; every glow-tone channel lies in
`[0, 255]`; and `create_game_frame` draws the scoreboard glow outlines at
the decreasing glow intensities 2, 1 with the `40×glow` tone. -/
theorem glow_tone_formulas (a b d g : Nat) (t1 t2 : Team) (c1 c2 : RGB)
    (gf : Option GameImg) (s1 s2 : ℤ) (turn fnum : Nat) (hp vp : ℤ)
    (ops : List DrawOp)
    (h1 : hex_to_rgb t1.color = some c1) (h2 : hex_to_rgb t2.color = some c2)
    (hops : create_game_frame gf t1 t2 s1 s2 turn fnum hp vp = some ops) :
    (a + 30 * g ≤ 255 ∧ b + 30 * g ≤ 255 ∧ d + 30 * g ≤ 255 →
        introGlowColor (a, b, d) g = (a + 30 * g, b + 30 * g, d + 30 * g)) ∧
    (a + 40 * g ≤ 255 ∧ b + 40 * g ≤ 255 ∧ d + 40 * g ≤ 255 →
        playGlowColor (a, b, d) g = (a + 40 * g, b + 40 * g, d + 40 * g)) ∧
    (introGlowColor (a, b, d) g).1 ≤ 255 ∧ (introGlowColor (a, b, d) g).2.1 ≤ 255 ∧
    (introGlowColor (a, b, d) g).2.2 ≤ 255 ∧
    (playGlowColor (a, b, d) g).1 ≤ 255 ∧ (playGlowColor (a, b, d) g).2.1 ≤ 255 ∧
    (playGlowColor (a, b, d) g).2.2 ≤ 255 ∧
    (∀ g' ∈ ([2, 1] : List Nat),
        DrawOp.rect (20 - (g' : ℤ)) (110 - (g' : ℤ)) (350 + (g' : ℤ)) (200 + (g' : ℤ))
          none (some (playGlowColor c1 g')) none 1 ∈ ops ∧
        DrawOp.rect (370 - (g' : ℤ)) (110 - (g' : ℤ)) (700 + (g' : ℤ)) (200 + (g' : ℤ))
          none (some (playGlowColor c2 g')) none 1 ∈ ops) := by
  unfold create_game_frame at hops
  rw [h1, h2] at hops
  have hops' : ops = _ := (Option.some_injective _ hops).symm
  subst hops'
  refine ⟨?_, ?_, ?_, ?_, ?_, ?_, ?_, ?_, ?_⟩
  · rintro ⟨ha, hb, hd⟩
    simp [introGlowColor, Nat.min_eq_right, ha, hb, hd]
  · rintro ⟨ha, hb, hd⟩
    simp [playGlowColor, Nat.min_eq_right, ha, hb, hd]
  · exact Nat.min_le_left _ _
  · exact Nat.min_le_left _ _
  · exact Nat.min_le_left _ _
  · exact Nat.min_le_left _ _
  · exact Nat.min_le_left _ _
  · exact Nat.min_le_left _ _
  · intro g' hg'
    rcases (by simpa using hg' : g' = 2 ∨ g' = 1) with h | h <;> subst h <;>
      constructor <;> simp [List.mem_append]

/-- Claim C3 (witness): the amended glow statement instantiated with
base `(200, 10, 10)`, glow 1, and two concrete valid teams. -/
theorem glow_tone_formulas_witness :
    introGlowColor (200, 10, 10) 1 = (230, 40, 40) ∧
    playGlowColor (200, 10, 10) 1 = (240, 50, 50) := by
  have h := glow_tone_formulas 200 10 10 1 redTeam redTeam (250, 10, 10) (250, 10, 10)
    none 0 0 1 0 0 0 _ (by decide) (by decide) rfl
  exact ⟨h.1 (by omega), h.2.1 (by omega)⟩

/-- Claim C5 (confirmed): on a zero-turn match (no game frames, no
scores) the assembler still yields the non-empty Intro + Outcome
timeline (168 frames, no Play frames), the final score defaults to
`(0, 0)`, and equal accumulated rewards give a winnerless (draw)
outcome. -/
theorem zero_turn_assembly :
    assembleTimeline [] [] = introSegment 3 ++ outcomeSegment 4 ∧
    (assembleTimeline [] []).length = 168 ∧
    0 < (assembleTimeline [] []).length ∧
    (∀ f ∈ assembleTimeline [] [],
      (∃ i, f = TFrame.intro i) ∨ (∃ i, f = TFrame.outcome i)) ∧
    finalScore [] = (0, 0) ∧
    determineWinner 0 0 = none := by
  refine ⟨by simp [assembleTimeline, buildPlay], ?_, ?_, ?_, rfl, by decide⟩
  · rw [assembleTimeline_length]; decide
  · rw [assembleTimeline_length]; omega
  · intro f hf
    rw [assembleTimeline] at hf
    simp [buildPlay, introSegment, outcomeSegment] at hf
    rcases hf with h | h
    · obtain ⟨i, -, hi⟩ := h
      exact Or.inl ⟨i, hi.symm⟩
    · obtain ⟨i, -, hi⟩ := h
      exact Or.inr ⟨i, hi.symm⟩

/-- Claim C9 (confirmed): a Play frame whose index `i` is at or beyond
the end of `scores_over_time` is still assembled into the timeline, and
its score pair is the last element of `scores_over_time` (`(0, 0)` when
that list is empty). -/
theorem tail_frames_use_last_score (gameFrames : List (Option Img))
    (scores : List (ℤ × ℤ)) (i : Nat) (hi : i < gameFrames.length)
    (hs : scores.length ≤ i) :
    (assembleTimeline gameFrames scores).getD (72 + i) (TFrame.intro 0) =
      TFrame.play (gameFrames.getD i none) (scores.getLastD (0, 0)).1
        (scores.getLastD (0, 0)).2 (i + 1) i ∧
    72 + i < (assembleTimeline gameFrames scores).length := by
  constructor
  · have hle : (introSegment 3).length ≤ 72 + i := by
      rw [introSegment_three_length]; omega
    have hlt : i < (buildPlay scores 0 gameFrames).length := by
      rw [buildPlay_length]; exact hi
    rw [assembleTimeline, List.append_assoc,
      List.getD_append_right _ _ _ _ hle, introSegment_three_length]
    have h72 : 72 + i - 72 = i := by omega
    rw [h72, List.getD_append _ _ _ _ hlt, buildPlay_getD scores 0 i gameFrames _ hi]
    rw [playScore, dif_neg (by omega)]
    simp
  · rw [assembleTimeline_length]; omega

/-- Claim C9 (witness): with two game frames and a single score entry,
the Play frame at index 1 is assembled with the last recorded score. -/
theorem tail_frames_use_last_score_witness :
    (assembleTimeline [some 5, some 6] [(2, 3)]).getD 73 (TFrame.intro 0) =
      TFrame.play (some 6) 2 3 2 1 := by
  have h := tail_frames_use_last_score [some 5, some 6] [(2, 3)] 1
    (by decide) (by decide)
  simpa using h.1

/-- Claim C2 (confirmed): for every non-negative turn count `n` and
sampling stride `k ≥ 1` (`k = 2` in `run_match`), the assembled timeline
has length exactly `72 + ⌈n / k⌉ + 96` (`⌈n / k⌉ = (n + k - 1) / k` in
natural division), with `72 = int(3.0 * 24)` intro frames and
`96 = int(4.0 * 24)` outcome frames, and this length is positive before
muxing is attempted. -/
theorem timeline_length_formula (turnFrames : List (Option Img))
    (scores : List (ℤ × ℤ)) (k : Nat) (hk : 0 < k) :
    (assembleTimeline (pySliceStep k turnFrames) scores).length
        = 72 + (turnFrames.length + (k - 1)) / k + 96 ∧
    (introSegment 3).length = 72 ∧ (outcomeSegment 4).length = 96 ∧
    0 < (assembleTimeline (pySliceStep k turnFrames) scores).length := by
  refine ⟨?_, introSegment_three_length, outcomeSegment_four_length, ?_⟩
  · rw [assembleTimeline_length,
      pySliceStep_length k hk turnFrames.length turnFrames le_rfl]
  · rw [assembleTimeline_length]; omega

/-- Claim C2 (witness): 5 turns at stride 2 assemble to
`72 + ⌈5/2⌉ + 96 = 171` frames. -/
theorem timeline_length_formula_witness :
    (assembleTimeline (pySliceStep 2 (List.replicate 5 (none : Option Img))) []).length
      = 171 := by
  have h := timeline_length_formula (List.replicate 5 (none : Option Img)) [] 2
    (by omega)
  simpa using h.1

/-- Claim C6 (confirmed): when a background audio clip loads, a clip
shorter than the video is looped to the exact video duration, a clip at
least as long is truncated to the video duration, and either way the
result is attenuated to gain `0.3`; when the asset is missing or fails
to load the video is still produced, with no audio attached. -/
theorem audio_fitting (a : AudioTrack) (frames : List TFrame) (vd : ℚ) :
    (a.duration < vd →
        fitAudio (some a) vd = some ((AudioTrack.loop a vd).volumex (3 / 10))) ∧
    (vd ≤ a.duration →
        fitAudio (some a) vd = some ((a.subclip 0 vd).volumex (3 / 10))) ∧
    (∀ t, fitAudio (some a) vd = some t →
        t.duration = vd ∧ t.gain = a.gain * (3 / 10)) ∧
    fitAudio none vd = none ∧
    muxVideo frames none vd = ⟨frames, none⟩ := by
  refine ⟨?_, ?_, ?_, rfl, rfl⟩
  · intro h; simp [fitAudio, h]
  · intro h; simp [fitAudio, not_lt.mpr h]
  · intro t ht
    by_cases h : a.duration < vd
    · simp only [fitAudio, if_pos h] at ht
      cases ht
      simp [AudioTrack.duration, AudioTrack.gain]
    · simp only [fitAudio, if_neg h] at ht
      cases ht
      simp [AudioTrack.duration, AudioTrack.gain]

/-- Claim C6 (witness): a 1-second clip against a 7-second video is
looped to 7 seconds; an 9-second clip is truncated to 7. -/
theorem audio_fitting_witness :
    fitAudio (some (AudioTrack.src 1)) 7
        = some ((AudioTrack.loop (AudioTrack.src 1) 7).volumex (3 / 10)) ∧
    fitAudio (some (AudioTrack.src 9)) 7
        = some (((AudioTrack.src 9).subclip 0 7).volumex (3 / 10)) := by
  constructor
  · exact (audio_fitting (AudioTrack.src 1) [] 7).1 (by norm_num [AudioTrack.duration])
  · exact (audio_fitting (AudioTrack.src 9) [] 7).2.1 (by norm_num [AudioTrack.duration])

/-- Claim C7 (confirmed): `select_action_with_skill`, with the random
draws `r` (uniform on `[0,1)`) and `u` (uniform legal index) explicit:
the optimal branch fires exactly when `r < skill_level` and then returns
the deterministic best action; otherwise the result is the uniformly
indexed legal action, which lies in the legal set; with
`skill_level = 1.0` the best action is returned on every call; with
`skill_level = 0.0` the best branch is never taken; with an empty legal
set the fixed fallback `0` is returned; and the legal-action list has no
duplicates, so uniform indexing is uniform sampling of the set. -/
theorem skill_modulated_selection (best : Nat) (mask : List ℤ)
    (skill_level r : ℚ) (u : Nat) :
    (legalActions mask = [] → select_action_with_skill best mask skill_level r u = 0) ∧
    (legalActions mask ≠ [] → r < skill_level →
        select_action_with_skill best mask skill_level r u = best) ∧
    (legalActions mask ≠ [] → ¬ r < skill_level → u < (legalActions mask).length →
        select_action_with_skill best mask skill_level r u = (legalActions mask).getD u 0 ∧
        select_action_with_skill best mask skill_level r u ∈ legalActions mask) ∧
    (skill_level = 1 → 0 ≤ r → r < 1 → legalActions mask ≠ [] →
        select_action_with_skill best mask skill_level r u = best) ∧
    (skill_level = 0 → 0 ≤ r → legalActions mask ≠ [] →
        select_action_with_skill best mask skill_level r u = (legalActions mask).getD u 0) ∧
    (¬ r < skill_level → ∀ a ∈ legalActions mask, ∃ v, v < (legalActions mask).length ∧
        select_action_with_skill best mask skill_level r v = a) ∧
    (legalActions mask).Nodup := by
  have hnodup : (legalActions mask).Nodup := by
    have hsub : List.Sublist ((mask.enum.filter (fun p => p.2 = 1)).map Prod.fst)
        (mask.enum.map Prod.fst) :=
      List.Sublist.map Prod.fst (List.filter_sublist _)
    rw [List.enum_map_fst] at hsub
    exact (List.nodup_range _).sublist hsub
  refine ⟨?_, ?_, ?_, ?_, ?_, ?_, hnodup⟩
  · intro h
    simp [select_action_with_skill, h]
  · intro h hr
    have hl : ¬ (legalActions mask).length = 0 := by
      simpa [List.length_eq_zero] using h
    simp [select_action_with_skill, hl, hr]
  · intro h hr hu
    have hl : ¬ (legalActions mask).length = 0 := by
      simpa [List.length_eq_zero] using h
    refine ⟨by simp [select_action_with_skill, hl, hr], ?_⟩
    simp only [select_action_with_skill, if_neg hl, if_neg hr]
    rw [List.getD_eq_getElem _ _ hu]
    exact List.getElem_mem _
  · intro hs hr0 hr1 h
    have hl : ¬ (legalActions mask).length = 0 := by
      simpa [List.length_eq_zero] using h
    subst hs
    simp [select_action_with_skill, hl, hr1]
  · intro hs hr0 h
    have hl : ¬ (legalActions mask).length = 0 := by
      simpa [List.length_eq_zero] using h
    subst hs
    have : ¬ r < 0 := not_lt.mpr hr0
    simp [select_action_with_skill, hl, this]
  · intro hr a ha
    obtain ⟨v, hv, hva⟩ := List.getElem_of_mem ha
    refine ⟨v, hv, ?_⟩
    have hl : ¬ (legalActions mask).length = 0 := by omega
    simp only [select_action_with_skill, if_neg hl, if_neg hr]
    rw [List.getD_eq_getElem _ _ hv]
    exact hva

/-- Claim C7 (witness): with mask `[0, 1, 1]` (legal actions 1, 2):
draw `r = 1/4 < skill 1/2` returns the best action 3; with
`skill = 0` the mistake branch returns legal action `2` for `u = 1`;
with the empty mask the fallback 0 is returned. -/
theorem skill_modulated_selection_witness :
    select_action_with_skill 3 [0, 1, 1] (1/2) (1/4) 1 = 3 ∧
    select_action_with_skill 3 [0, 1, 1] 0 (1/4) 1 = 2 ∧
    select_action_with_skill 3 [] 1 (1/4) 0 = 0 := by
  refine ⟨?_, ?_, ?_⟩
  · exact (skill_modulated_selection 3 [0, 1, 1] (1/2) (1/4) 1).2.1
      (by decide) (by norm_num)
  · have h := (skill_modulated_selection 3 [0, 1, 1] 0 (1/4) 1).2.2.2.2.1
      rfl (by norm_num) (by decide)
    simpa using h
  · exact (skill_modulated_selection 3 [] 1 (1/4) 0).1 (by decide)

/-- Claim C8 (confirmed): rendering a Play frame with an absent (`None`)
embedded game frame does not fail: no image is pasted and no
embedded-frame glow border is drawn (those are the only ops carrying an
outline alpha), while the header bar and title, both team scoreboard
panels with name and score, the VS badge, and the footer turn badge are
still drawn. -/
theorem play_frame_absent_image (t1 t2 : Team) (c1 c2 : RGB) (s1 s2 : ℤ)
    (turn fnum : Nat) (hp vp : ℤ)
    (h1 : hex_to_rgb t1.color = some c1) (h2 : hex_to_rgb t2.color = some c2) :
    ∃ ops, create_game_frame none t1 t2 s1 s2 turn fnum hp vp = some ops ∧
      (∀ op ∈ ops, op.isPaste = false) ∧
      (∀ op ∈ ops, ∀ x1 y1 x2 y2 f o al w,
          op = DrawOp.rect x1 y1 x2 y2 f o (some al) w → False) ∧
      DrawOp.rect 0 0 720 (90 + hp) (some (20, 20, 35)) none none 0 ∈ ops ∧
      DrawOp.text 360 45 TextC.title (255, 215, 0) ∈ ops ∧
      DrawOp.rect 20 110 350 200 (some c1) none none 0 ∈ ops ∧
      DrawOp.text 180 170 (TextC.score s1) (255, 255, 255) ∈ ops ∧
      DrawOp.rect 370 110 700 200 (some c2) none none 0 ∈ ops ∧
      DrawOp.text 540 170 (TextC.score s2) (255, 255, 255) ∈ ops ∧
      DrawOp.ellipse (360 - 25 - vp) (130 - vp) (360 + 25 + vp) (180 + vp)
        (some (40, 40, 55)) (some (255, 215, 0)) 2 ∈ ops ∧
      DrawOp.rect 100 1210 620 1260 (some (40, 40, 55)) (some (255, 215, 0)) none 2 ∈ ops ∧
      DrawOp.text 360 1235 (TextC.turnLabel turn) (255, 255, 255) ∈ ops := by
  unfold create_game_frame
  rw [h1, h2]
  simp only [List.map_cons, List.map_nil, List.cons_append, List.nil_append, List.append_nil]
  refine ⟨_, rfl, ?_, ?_, ?_, ?_, ?_, ?_, ?_, ?_, ?_, ?_, ?_⟩
  · intro op hop
    fin_cases hop <;> rfl
  · intro op hop
    fin_cases hop <;> simp
  all_goals simp

/-- Claim C8 (witness): the absent-frame Play render for two concrete
valid teams succeeds. -/
theorem play_frame_absent_image_witness :
    (create_game_frame none redTeam redTeam 0 0 1 0 0 0).isSome = true := by
  obtain ⟨ops, hops, -⟩ := play_frame_absent_image redTeam redTeam
    (250, 10, 10) (250, 10, 10) 0 0 1 0 0 0 (by decide) (by decide)
  rw [hops]
  rfl

/-! ## Match-loop lemmas -/

theorem goLoop_succ (iter : Nat → Option StepRec) (record : Bool) (m fuel : Nat)
    (st : LoopState) :
    goLoop iter record m (fuel + 1) st =
      match iter st.turnCount with
      | none => st
      | some rec =>
        if m ≤ (stepTurn record st rec).turnCount then stepTurn record st rec
        else goLoop iter record m fuel (stepTurn record st rec) := rfl

theorem stepTurn_turnCount (record : Bool) (st : LoopState) (rec : StepRec) :
    (stepTurn record st rec).turnCount = st.turnCount + 1 := rfl

theorem goLoop_fuel_stable (iter : Nat → Option StepRec) (record : Bool) (m : Nat) :
    ∀ f1 f2 : Nat, ∀ st : LoopState, 1 ≤ f1 → 1 ≤ f2 →
      m ≤ st.turnCount + f1 → m ≤ st.turnCount + f2 →
      goLoop iter record m f1 st = goLoop iter record m f2 st := by
  intro f1
  induction f1 with
  | zero => intro f2 st h1; omega
  | succ f ih =>
    intro f2 st h1 h2 hm1 hm2
    cases f2 with
    | zero => omega
    | succ g =>
      rw [goLoop_succ, goLoop_succ]
      cases hit : iter st.turnCount with
      | none => rfl
      | some rec =>
        dsimp only
        by_cases hbr : m ≤ (stepTurn record st rec).turnCount
        · rw [if_pos hbr, if_pos hbr]
        · rw [if_neg hbr, if_neg hbr]
          rw [stepTurn_turnCount] at hbr
          exact ih g (stepTurn record st rec)
            (by omega)
            (by omega)
            (by rw [stepTurn_turnCount]; omega)
            (by rw [stepTurn_turnCount]; omega)

theorem goLoop_turnCount_le (iter : Nat → Option StepRec) (record : Bool) (m : Nat) :
    ∀ fuel : Nat, ∀ st : LoopState,
      (goLoop iter record m fuel st).turnCount ≤ max m (st.turnCount + 1) := by
  intro fuel
  induction fuel with
  | zero => intro st; rw [goLoop]; omega
  | succ f ih =>
    intro st
    rw [goLoop_succ]
    cases hit : iter st.turnCount with
    | none => dsimp only; omega
    | some rec =>
      dsimp only
      by_cases hbr : m ≤ (stepTurn record st rec).turnCount
      · rw [if_pos hbr, stepTurn_turnCount]
        rw [stepTurn_turnCount] at hbr
        omega
      · rw [if_neg hbr]
        rw [stepTurn_turnCount] at hbr
        have h := ih (stepTurn record st rec)
        rw [stepTurn_turnCount] at h
        omega

theorem stepTurn_telemetry (iter : Nat → Option StepRec)
    (H : ∀ t rec, iter t = some rec → t % 2 = 0 → rec.render ≠ none)
    (st : LoopState) (rec : StepRec) (hit : iter st.turnCount = some rec)
    (h1 : st.scores.length = st.turnCount)
    (h2 : st.frames.length = (st.turnCount + 1) / 2)
    (h3 : ∀ j, 2 * j < st.turnCount → st.frames.getD j 0 = imageAt iter (2 * j)) :
    (stepTurn true st rec).scores.length = (stepTurn true st rec).turnCount ∧
    (stepTurn true st rec).frames.length = ((stepTurn true st rec).turnCount + 1) / 2 ∧
    (∀ j, 2 * j < (stepTurn true st rec).turnCount →
      (stepTurn true st rec).frames.getD j 0 = imageAt iter (2 * j)) := by
  refine ⟨by simp [stepTurn, h1], ?_, ?_⟩
  · by_cases hpar : st.turnCount % 2 = 0
    · obtain ⟨img, himg⟩ : ∃ img, rec.render = some img := by
        cases hr : rec.render with
        | none => exact absurd hr (H _ _ hit hpar)
        | some i => exact ⟨i, rfl⟩
      simp only [stepTurn, hpar, and_true, if_pos trivial, himg, true_and, if_true]
      simp [List.length_append, h2]
      omega
    · simp only [stepTurn]
      rw [if_neg (by simpa using hpar)]
      simp only [h2]
      omega
  · intro j hj
    rw [stepTurn_turnCount] at hj
    by_cases hpar : st.turnCount % 2 = 0
    · obtain ⟨img, himg⟩ : ∃ img, rec.render = some img := by
        cases hr : rec.render with
        | none => exact absurd hr (H _ _ hit hpar)
        | some i => exact ⟨i, rfl⟩
      have hframes : (stepTurn true st rec).frames = st.frames ++ [img] := by
        simp [stepTurn, hpar, himg]
      rw [hframes]
      rcases Nat.lt_or_ge (2 * j) st.turnCount with hlt | hge
      · have hjlen : j < st.frames.length := by rw [h2]; omega
        rw [List.getD_append _ _ _ _ hjlen]
        exact h3 j hlt
      · have hje : 2 * j = st.turnCount := by omega
        have hjlen : j = st.frames.length := by rw [h2]; omega
        subst hjlen
        rw [List.getD_append_right _ _ _ _ le_rfl, Nat.sub_self]
        have : imageAt iter (2 * st.frames.length) = img := by
          rw [hje, imageAt, hit]
          simp [himg]
        rw [this]
        rfl
    · have hframes : (stepTurn true st rec).frames = st.frames := by
        simp only [stepTurn]
        rw [if_neg (by simpa using hpar)]
      rw [hframes]
      have : 2 * j < st.turnCount := by omega
      exact h3 j this

theorem goLoop_telemetry (iter : Nat → Option StepRec) (m : Nat)
    (H : ∀ t rec, iter t = some rec → t % 2 = 0 → rec.render ≠ none) :
    ∀ fuel : Nat, ∀ st : LoopState,
      st.scores.length = st.turnCount →
      st.frames.length = (st.turnCount + 1) / 2 →
      (∀ j, 2 * j < st.turnCount → st.frames.getD j 0 = imageAt iter (2 * j)) →
      (goLoop iter true m fuel st).scores.length = (goLoop iter true m fuel st).turnCount ∧
      (goLoop iter true m fuel st).frames.length
          = ((goLoop iter true m fuel st).turnCount + 1) / 2 ∧
      (∀ j, 2 * j < (goLoop iter true m fuel st).turnCount →
        (goLoop iter true m fuel st).frames.getD j 0 = imageAt iter (2 * j)) := by
  intro fuel
  induction fuel with
  | zero => intro st h1 h2 h3; exact ⟨h1, h2, h3⟩
  | succ f ih =>
    intro st h1 h2 h3
    rw [goLoop_succ]
    cases hit : iter st.turnCount with
    | none => exact ⟨h1, h2, h3⟩
    | some rec =>
      dsimp only
      obtain ⟨g1, g2, g3⟩ := stepTurn_telemetry iter H st rec hit h1 h2 h3
      by_cases hbr : m ≤ (stepTurn true st rec).turnCount
      · rw [if_pos hbr]
        exact ⟨g1, g2, g3⟩
      · rw [if_neg hbr]
        exact ih (stepTurn true st rec) g1 g2 g3

theorem getD_drop (l : List α) (n i : Nat) (d : α) :
    (l.drop n).getD i d = l.getD (n + i) d := by
  induction l generalizing n with
  | nil => simp
  | cons x xs ih =>
    cases n with
    | zero => simp
    | succ n =>
      rw [List.drop_succ_cons, ih n]
      have : n + 1 + i = (n + i) + 1 := by omega
      rw [this, List.getD_cons_succ]

theorem pySliceStep_getD (k : Nat) (hk : 0 < k) :
    ∀ (n : Nat) (xs : List α) (j : Nat) (d : α), xs.length ≤ n →
      k * j < xs.length → (pySliceStep k xs).getD j d = xs.getD (k * j) d := by
  intro n
  induction n with
  | zero =>
    intro xs j d h hkj
    omega
  | succ n ih =>
    intro xs j d h hkj
    cases xs with
    | nil => simp at hkj
    | cons x rest =>
      rw [pySliceStep]
      cases j with
      | zero => simp
      | succ j =>
        rw [List.getD_cons_succ]
        have hmul : k * (j + 1) = k * j + k := by ring
        rw [hmul] at hkj
        simp only [List.length_cons] at h hkj
        have hlen : (rest.drop (k - 1)).length ≤ n := by
          rw [List.length_drop]; omega
        have hkj' : k * j < (rest.drop (k - 1)).length := by
          rw [List.length_drop]; omega
        rw [ih (rest.drop (k - 1)) j d hlen hkj', getD_drop, hmul]
        generalize k * j = K
        have hstep : K + k = (k - 1 + K) + 1 := by omega
        rw [hstep, List.getD_cons_succ]

theorem getD_take (l : List α) (n j : Nat) (d : α) (hj : j < n) (hl : j < l.length) :
    (l.take n).getD j d = l.getD j d := by
  rw [List.getD_eq_getElem _ _ (by rw [List.length_take]; omega),
    List.getD_eq_getElem _ _ hl]
  exact List.getElem_take _

/-- Claim C10 (counterexample): with `max_turns = 0` and an environment
stream that always yields, the loop still executes one iteration — the
break test sits at the bottom of the body, after `turn_count += 1` — so
the reported turn count is `1`, not at most `max_turns = 0`. -/
theorem max_turns_zero_still_runs_once :
    (runMatchLoop constIter true 0).turnCount = 1 ∧
    ¬ ((runMatchLoop constIter true 0).turnCount ≤ 0) := by
  constructor
  · rfl
  · decide

/-- Claim C10 (amended): the match loop terminates for every environment
stream, including one that never reports termination or truncation:
giving the loop any fuel beyond `max_turns + 1` iterations leaves the
result unchanged (the bottom-of-body break always fires by then), and
the reported turn count is at most `max(max_turns, 1)` — at most
`max_turns` whenever `max_turns ≥ 1` (the default is 500), while
`max_turns = 0` still lets exactly one iteration run before the break
test is reached. -/
theorem match_loop_bounded (iter : Nat → Option StepRec) (record : Bool)
    (m extra : Nat) :
    goLoop iter record m (m + 1 + extra) initLoopState = runMatchLoop iter record m ∧
    (runMatchLoop iter record m).turnCount ≤ max m 1 := by
  constructor
  · exact goLoop_fuel_stable iter record m (m + 1 + extra) (m + 1) initLoopState
      (by omega) (by omega) (by simp only [initLoopState]; omega)
      (by simp only [initLoopState]; omega)
  · have h := goLoop_turnCount_le iter record m (m + 1) initLoopState
    simpa [runMatchLoop, initLoopState] using h

/-- Claim C1 (counterexample): on a 3-turn match whose render call at
sampled turn 0 returns `None` while sampled turn 2 renders image `42`
(team 1 scoring `1` on turn 2), the only Play frame is the image of
turn 2 but its attached score is `(0, 0)` — the telemetry's score as of
turn 0 — whereas the telemetry's cumulative score at turn 2 is `(1, 0)`:
a skipped `None` frame desynchronizes score from the sampled game
frame. -/
theorem none_render_desynchronizes_scores :
    (runMatchLoop cexIter true 500).frames = [42] ∧
    (runMatchLoop cexIter true 500).scores = [(0, 0), (0, 0), (1, 0)] ∧
    cexIter 0 = some ⟨false, 0, false, false, none⟩ ∧
    cexIter 2 = some ⟨false, 1, false, false, some 42⟩ ∧
    sampledScores (runMatchLoop cexIter true 500) = [(0, 0)] ∧
    playScore (sampledScores (runMatchLoop cexIter true 500)) 0 = (0, 0) ∧
    (runMatchLoop cexIter true 500).scores.getD 2 (0, 0) = (1, 0) ∧
    ((0, 0) : ℤ × ℤ) ≠ (1, 0) := by
  have hrun : runMatchLoop cexIter true 500
      = ⟨1, 0, [(0, 0), (0, 0), (1, 0)], [42], 3⟩ := rfl
  have hsam : sampledScores (runMatchLoop cexIter true 500) = [(0, 0)] := by
    rw [sampledScores, hrun]
    simp [pySliceStep]
  refine ⟨by rw [hrun], by rw [hrun], rfl, rfl, hsam, ?_, by rw [hrun]; rfl, by decide⟩
  rw [hsam]
  rfl

/-- Claim C1 (amended): in every recorded match in which the
environment's render call returns a frame at every sampled (even) turn
it yields, Play frame `j` is rendered from sampled turn `2*j` — so
sampling preserves turn order — and the score attached to it is exactly
the telemetry's cumulative score as of that turn,
`scores_over_time[2*j]`, never interpolated or averaged.  (When a
sampled turn's render returns `None` the code drops that frame and the
scores attached to later frames lag behind their turns — see the
counterexample.) -/
theorem sampled_frame_scores_exact (iter : Nat → Option StepRec) (m : Nat)
    (H : ∀ t rec, iter t = some rec → t % 2 = 0 → rec.render ≠ none)
    (j : Nat) (hj : j < (runMatchLoop iter true m).frames.length) :
    playScore (sampledScores (runMatchLoop iter true m)) j
        = (runMatchLoop iter true m).scores.getD (2 * j) (0, 0) ∧
    (runMatchLoop iter true m).frames.getD j 0 = imageAt iter (2 * j) ∧
    2 * j < (runMatchLoop iter true m).turnCount := by
  obtain ⟨h1, h2, h3⟩ := goLoop_telemetry iter m H (m + 1) initLoopState rfl rfl
    (by intro j hj; simp [initLoopState] at hj)
  rw [runMatchLoop] at hj ⊢
  set st := goLoop iter true m (m + 1) initLoopState with hst
  have htc : 2 * j < st.turnCount := by omega
  refine ⟨?_, h3 j htc, htc⟩
  have hslen : (pySliceStep 2 st.scores).length = (st.scores.length + 1) / 2 := by
    have h := pySliceStep_length 2 (by omega) st.scores.length st.scores le_rfl
    rw [h]
  have hsamlen : (sampledScores st).length = st.frames.length := by
    rw [sampledScores, List.length_take, hslen, h1, h2]
    omega
  have hj2 : j < (sampledScores st).length := by omega
  rw [playScore, dif_pos hj2]
  have hscore : (sampledScores st).get ⟨j, hj2⟩ = (sampledScores st).getD j (0, 0) :=
    (List.getD_eq_get _ _ hj2).symm
  rw [hscore, sampledScores]
  have hjslice : j < (pySliceStep 2 st.scores).length := by omega
  rw [getD_take _ _ _ _ hj hjslice]
  have h2j : 2 * j < st.scores.length := by omega
  exact pySliceStep_getD 2 (by omega) st.scores.length st.scores j (0, 0) le_rfl h2j

/-- Claim C1 (witness): the amended synchronization applied at frame 0
of a concrete two-turn match whose sampled turn renders image 7. -/
theorem sampled_frame_scores_exact_witness :
    playScore (sampledScores (runMatchLoop okIter true 500)) 0
        = (runMatchLoop okIter true 500).scores.getD 0 (0, 0) ∧
    (runMatchLoop okIter true 500).frames.getD 0 0 = imageAt okIter 0 := by
  have hH : ∀ t rec, okIter t = some rec → t % 2 = 0 → rec.render ≠ none := by
    intro t rec h ht
    match t with
    | 0 =>
      rw [show okIter 0 = some ⟨false, 1, false, false, some 7⟩ from rfl] at h
      injection h with h'
      subst h'
      simp
    | 1 => exact absurd ht (by decide)
    | (n + 2) => simp [okIter] at h
  have hj : 0 < (runMatchLoop okIter true 500).frames.length := by
    rw [show runMatchLoop okIter true 500 = ⟨1, 0, [(1, 0), (1, 0)], [7], 2⟩ from rfl]
    decide
  obtain ⟨hs, hf, -⟩ := sampled_frame_scores_exact okIter 500 hH 0 hj
  exact ⟨hs, by simpa using hf⟩

end TheLeague
